import Mathlib

/-!
# myshell.c : command dispatch, process creation and signal policy

A shallow embedding of `src/myshell.c`.  The program is a sequence of system
calls whose results decide the control flow, so the embedding is a state
monad over a `World` that holds

* the stream of answers the operating system gives to the successive system
  calls of the process under observation (`answers`),
* the C global `errno`,
* the list of system calls issued so far, each with its answer (`trace`).

A run follows ONE process.  `fork` answering `0` means the observed process
is the freshly created child; any other answer means it is still the parent.
A computation ends in one of four ways: the C function returns a value, the
process calls `exit`, `execvp` replaces the process image, or the process is
killed inside a call.
-/

namespace MyShell

/-! ## Constants of the system headers (Linux values) -/

/-- Signal number of the keyboard interrupt, `<signal.h>`. -/
def SIGINT : Int := 2
/-- Signal number of the child-state-change notification, `<signal.h>`. -/
def SIGCHLD : Int := 17
/-- Error return of `signal`, `(sighandler_t) -1`. -/
def SIG_ERR : Int := -1
/-- The `waitpid` option "return at once if no child has exited", `<sys/wait.h>`. -/
def WNOHANG : Int := 1
/-- The `sigaction` flag "restart interrupted calls", `<signal.h>`. -/
def SA_RESTART : Int := 0x10000000
/-- Error code "no child processes", `<errno.h>`. -/
def ECHILD : Int := 10
/-- Error code "interrupted system call", `<errno.h>`. -/
def EINTR : Int := 4
/-- Signal number of the invalid memory reference, `<signal.h>`. -/
def SIGSEGV : Int := 11
/-- Flags `O_CREAT | O_WRONLY | O_TRUNC` of `<fcntl.h>`: 0o100 + 0o1 + 0o1000. -/
def O_CREAT_WRONLY_TRUNC : Int := 64 + 1 + 512

/-! ## System calls, answers, events -/

/-- The dispositions the program installs for a signal. -/
inductive Handler where
  | SIG_IGN
  | SIG_DFL
  | my_SIGCHLD_handler
  deriving DecidableEq, Repr

/-- A system call (or libc call) together with the arguments the program
passes.  A `char*` is an `Option String` (`none` is `NULL`); an argument
vector is the list of strings found before the first `NULL`. -/
inductive Call where
  | signal (signum : Int) (handler : Handler)
  | sigaction (signum : Int) (handler : Handler) (flags : Int)
  | fork
  | waitpid (pid : Int) (options : Int)
  | sys_open (path : Option String) (flags : Int) (mode : Nat)
  | pipe
  | close (fd : Int)
  | dup2 (oldfd : Int) (newfd : Int)
  | execvp (file : Option String) (argv : List String)
  deriving DecidableEq, Repr

/-- What the operating system answers to one call: the return value, the
value of the C global `errno` once the call has returned (the error code when
the call failed; after a success C leaves the value unspecified), and, for
`pipe`, the two descriptors stored in the caller's array. -/
structure Answer where
  ret : Int
  errno : Int
  fd0 : Int
  fd1 : Int
  deriving DecidableEq, Repr

/-- The four execution strategies `process_arglist` can call, with the index
argument it passes. -/
inductive Strategy where
  | execCommand
  | execRedirOutput (index : Nat)
  | execPiping (index : Nat)
  | execBackground (index : Nat)
  deriving DecidableEq, Repr

/-- One observable step of the process. -/
inductive Event where
  /-- A system call and the answer it received. -/
  | sys (c : Call) (a : Answer)
  /-- A call of `printError(err)`, i.e. `perror(strerror(err))`. -/
  | printError (err : Int)
  /-- Ghost event: `process_arglist` calls the given strategy. -/
  | invoke (s : Strategy)
  /-- A call that never answered: the process was killed inside it. -/
  | faulted (c : Call)
  deriving DecidableEq, Repr

/-- The state threaded through a run. -/
structure World where
  /-- Answers to the calls still to come, in order. -/
  answers : Nat → Answer
  /-- The C global `errno`. -/
  errno : Int
  /-- Everything the process did so far, oldest first. -/
  trace : List Event

/-- A fresh process: nothing done yet. -/
def World.init (answers : Nat → Answer) : World :=
  ⟨answers, 0, []⟩

/-- How a computation ends. -/
inductive Outcome (α : Type) where
  /-- The C code went on (a call returned, or the function returned `a`). -/
  | returned (a : α)
  /-- The process called `exit(code)`. -/
  | exited (code : Int)
  /-- A successful `execvp`: the program image is gone. -/
  | replaced (file : Option String) (argv : List String)
  /-- The process was killed by the given signal. -/
  | killed (signum : Int)
  deriving DecidableEq, Repr

/-- Computations of the shell process. -/
def Sh (α : Type) : Type := World → Outcome α × World

/-- Sequencing: the rest runs only if the first part returned. -/
def Sh.bind {α β : Type} (m : Sh α) (f : α → Sh β) : Sh β := fun w =>
  match m w with
  | (Outcome.returned a, w1) => f a w1
  | (Outcome.exited code, w1) => (Outcome.exited code, w1)
  | (Outcome.replaced file argv, w1) => (Outcome.replaced file argv, w1)
  | (Outcome.killed signum, w1) => (Outcome.killed signum, w1)

instance : Monad Sh where
  pure a := fun w => (Outcome.returned a, w)
  bind := Sh.bind

/-- Issue a call: take the next answer, record the event, and set `errno` as
the answer says. -/
def sys (c : Call) : Sh Answer := fun w =>
  let a := w.answers 0
  (Outcome.returned a,
    ⟨fun n => w.answers (n + 1), a.errno, w.trace ++ [Event.sys c a]⟩)

/-- The call `execvp(file, argv)`.  With a `NULL` file name (the command is
empty: `arglist[0]` is the terminator) the call has no result: the C library
reads the name and the process is killed by `SIGSEGV` inside the call.
Otherwise the call returns (with `-1`) only when it fails; any other answer
means the image was replaced and this code is gone. -/
def execvp (file : Option String) (argv : List String) : Sh Int := fun w =>
  if file = none then
    (Outcome.killed SIGSEGV,
      ⟨w.answers, w.errno, w.trace ++ [Event.faulted (Call.execvp file argv)]⟩)
  else
    match sys (Call.execvp file argv) w with
    | (Outcome.returned a, w1) =>
        if a.ret = -1 then (Outcome.returned (-1), w1)
        else (Outcome.replaced file argv, w1)
    | (Outcome.exited code, w1) => (Outcome.exited code, w1)
    | (Outcome.replaced f v, w1) => (Outcome.replaced f v, w1)
    | (Outcome.killed signum, w1) => (Outcome.killed signum, w1)

/-- Read the global `errno`. -/
def getErrno : Sh Int := fun w => (Outcome.returned w.errno, w)

/-- The libc call `exit(code)`. -/
def exit {α : Type} (code : Int) : Sh α := fun w => (Outcome.exited code, w)

/-- Record a ghost event. -/
def emit (e : Event) : Sh Unit := fun w =>
  (Outcome.returned (), ⟨w.answers, w.errno, w.trace ++ [e]⟩)

/-- Helper method, prints to stderr the received errno (`printError`). -/
def printError (err : Int) : Sh Unit := emit (Event.printError err)

/-! ## Argument vectors -/

/-- The memory cell `arglist[i]`; a cell outside the array reads as `NULL`
(no run on a terminated array reads one). -/
def cell (arglist : List (Option String)) (i : Nat) : Option String :=
  (arglist.get? i).join

/-- The strings a `char**` points to, up to the first `NULL`. -/
def argvOf : List (Option String) → List String
  | [] => []
  | none :: _ => []
  | some s :: rest => s :: argvOf rest

/-- The array a caller passes for the given tokens: the tokens and the
terminating `NULL`. -/
def arglistOf (tokens : List String) : List (Option String) :=
  tokens.map some ++ [none]

/-! ## The program

The bodies follow `src/myshell.c` statement by statement; a C `return` in the
middle of a function is a `return` in the middle of the `do` block. -/

/-- Setting a handler for SIGCHLD (`register_SIGCHLD_handler`): the value of
`sigaction(SIGCHLD, &zombiekiller, NULL)` with `sa_handler =
my_SIGCHLD_handler` and `sa_flags = SA_RESTART`. -/
def register_SIGCHLD_handler : Sh Int := do
  let r ← sys (Call.sigaction SIGCHLD Handler.my_SIGCHLD_handler SA_RESTART)
  return r.ret

/-- The set-up call of the shell (`prepare`). -/
def prepare : Sh Int := do
  if (← sys (Call.signal SIGINT Handler.SIG_IGN)).ret = SIG_ERR then
    let err ← getErrno
    printError err
    return (-1)
  if (← register_SIGCHLD_handler) = -1 then
    let err ← getErrno
    printError err
    exit 1
  return 0

/-- The handler for SIGCHLD (`my_SIGCHLD_handler`). -/
def my_SIGCHLD_handler (signum : Int) : Sh Unit := do
  if signum = SIGCHLD then
    if (← sys (Call.waitpid (-1) WNOHANG)).ret = -1 then
      let err ← getErrno
      if err ≠ ECHILD ∧ err ≠ EINTR then
        printError err
        exit 1

/-- Executes command in background (&); `index` is the index of & in
`arglist` (`execBackground`). -/
def execBackground (arglist : List (Option String)) (index : Nat) : Sh Int := do
  let arglist := arglist.set index none
  let pid ← sys Call.fork
  if pid.ret = -1 then
    let err ← getErrno
    printError err
    return 0
  if pid.ret = 0 then
    if (← sys (Call.signal SIGINT Handler.SIG_IGN)).ret = SIG_ERR then
      let err ← getErrno
      printError err
      exit 1
    if (← execvp (cell arglist 0) (argvOf arglist)) = -1 then
      let err ← getErrno
      printError err
      exit 1
  else
    if (← sys (Call.waitpid pid.ret WNOHANG)).ret = -1 then
      let err ← getErrno
      if err ≠ ECHILD ∧ err ≠ EINTR then
        printError err
        return 0
  return 1

/-- Executes command, redirects output to given file (>); `index` is the
index of > in `arglist` (`execRedirOutput`). -/
def execRedirOutput (arglist : List (Option String)) (index : Nat) : Sh Int := do
  let path := cell arglist (index + 1)
  let arglist := arglist.set index none
  let fd_redir ← sys (Call.sys_open path O_CREAT_WRONLY_TRUNC 0o777)
  if fd_redir.ret = -1 then
    let err ← getErrno
    printError err
    exit 1
  let pid ← sys Call.fork
  if pid.ret = -1 then
    let err ← getErrno
    printError err
    return 0
  if pid.ret = 0 then
    if (← sys (Call.dup2 fd_redir.ret 1)).ret = -1 then
      let err ← getErrno
      printError err
      exit 1
    if (← sys (Call.close fd_redir.ret)).ret = -1 then
      let err ← getErrno
      printError err
      exit 1
    if (← sys (Call.signal SIGINT Handler.SIG_DFL)).ret = SIG_ERR then
      let err ← getErrno
      printError err
      exit 1
    if (← execvp (cell arglist 0) (argvOf arglist)) = -1 then
      let err ← getErrno
      printError err
      exit 1
  else
    if (← sys (Call.close fd_redir.ret)).ret = -1 then
      let err ← getErrno
      printError err
      return 0
    if (← sys (Call.waitpid pid.ret 0)).ret = -1 then
      let err ← getErrno
      if err ≠ ECHILD ∧ err ≠ EINTR then
        printError err
        return 0
  return 1

/-- Executing two commands, with single piping (|); `index` is the index of
| in `arglist` (`execPiping`).  `arglist2` is the pointer `&arglist[index+1]`.
The test after the second `fork` reads `pid`, as the source does. -/
def execPiping (arglist : List (Option String)) (index : Nat) : Sh Int := do
  let arglist := arglist.set index none
  let arglist2 := arglist.drop (index + 1)
  let fd ← sys Call.pipe
  if fd.ret = -1 then
    let err ← getErrno
    printError err
    return 0
  let pid ← sys Call.fork
  if pid.ret = -1 then
    let err ← getErrno
    printError err
    return 0
  if pid.ret = 0 then
    if (← sys (Call.dup2 fd.fd1 1)).ret = -1 then
      let err ← getErrno
      printError err
      exit 1
    if (← sys (Call.close fd.fd0)).ret = -1 then
      let err ← getErrno
      printError err
      exit 1
    if (← sys (Call.signal SIGINT Handler.SIG_DFL)).ret = SIG_ERR then
      let err ← getErrno
      printError err
      exit 1
    if (← execvp (cell arglist 0) (argvOf arglist)) = -1 then
      let err ← getErrno
      printError err
      exit 1
  else
    if (← sys (Call.close fd.fd1)).ret = -1 then
      let err ← getErrno
      printError err
      return 0
    let pid2 ← sys Call.fork
    if pid.ret = -1 then
      let err ← getErrno
      printError err
      return 0
    if pid2.ret = 0 then
      if (← sys (Call.dup2 fd.fd0 0)).ret = -1 then
        let err ← getErrno
        printError err
        exit 1
      if (← sys (Call.signal SIGINT Handler.SIG_DFL)).ret = SIG_ERR then
        let err ← getErrno
        printError err
        exit 1
      if (← execvp (cell arglist2 0) (argvOf arglist2)) = -1 then
        let err ← getErrno
        printError err
        exit 1
    else
      if (← sys (Call.close fd.fd0)).ret = -1 then
        let err ← getErrno
        printError err
        return 0
      if (← sys (Call.waitpid pid.ret 0)).ret = -1 then
        let err ← getErrno
        if err ≠ ECHILD ∧ err ≠ EINTR then
          printError err
          return 0
      if (← sys (Call.waitpid pid2.ret 0)).ret = -1 then
        let err ← getErrno
        if err ≠ ECHILD ∧ err ≠ EINTR then
          printError err
          return 0
  return 1

/-- Executing a "normal" command: foreground, no output redirection, no piping
(`execCommand`). -/
def execCommand (arglist : List (Option String)) : Sh Int := do
  let pid ← sys Call.fork
  if pid.ret = -1 then
    let err ← getErrno
    printError err
    return 0
  if pid.ret = 0 then
    if (← sys (Call.signal SIGINT Handler.SIG_DFL)).ret = SIG_ERR then
      let err ← getErrno
      printError err
      exit 1
    if (← execvp (cell arglist 0) (argvOf arglist)) = -1 then
      let err ← getErrno
      printError err
      exit 1
  else
    if (← sys (Call.waitpid pid.ret 0)).ret = -1 then
      let err ← getErrno
      if err ≠ ECHILD ∧ err ≠ EINTR then
        printError err
        return 0
  return 1

/-- The `while` loop of `process_arglist` together with the `if (done == 0)`
after it.  The second argument is the part of the array from `arglist[index]`
on; the loop ends without a match when `arglist[index]` is `NULL` (a cell
outside the array reads as `NULL`).  Each call of a strategy is preceded by
its ghost event. -/
def scanArglist (arglist : List (Option String)) :
    List (Option String) → Nat → Sh Int
  | some tok :: rest, index =>
      if tok = "|" then do
        emit (Event.invoke (Strategy.execPiping index))
        execPiping arglist index
      else if tok = ">" then do
        emit (Event.invoke (Strategy.execRedirOutput index))
        execRedirOutput arglist index
      else if tok = "&" then do
        emit (Event.invoke (Strategy.execBackground index))
        execBackground arglist index
      else scanArglist arglist rest (index + 1)
  | _, _ => do
      emit (Event.invoke Strategy.execCommand)
      execCommand arglist

/-- The dispatcher (`process_arglist`). -/
def process_arglist (_count : Int) (arglist : List (Option String)) : Sh Int := do
  if (← sys (Call.signal SIGINT Handler.SIG_IGN)).ret = SIG_ERR then
    let err ← getErrno
    printError err
    return 0
  scanArglist arglist arglist 0

/-- The tear-down call (`finalize`). -/
def finalize : Sh Int := return 0

/-! ## Reading a trace -/

/-- The strategies `process_arglist` called, in order. -/
def invocations : List Event → List Strategy
  | [] => []
  | Event.invoke s :: rest => s :: invocations rest
  | _ :: rest => invocations rest

/-- The values the `fork` calls returned, in order. -/
def forkRets : List Event → List Int
  | [] => []
  | Event.sys Call.fork a :: rest => a.ret :: forkRets rest
  | _ :: rest => forkRets rest

/-- The `waitpid` calls issued, as (pid, options), in order. -/
def waitCalls : List Event → List (Int × Int)
  | [] => []
  | Event.sys (Call.waitpid pid options) _ :: rest => (pid, options) :: waitCalls rest
  | _ :: rest => waitCalls rest

/-- The `execvp` calls issued, as (file, argv), in order, the one that killed
the process included. -/
def execCalls : List Event → List (Option String × List String)
  | [] => []
  | Event.sys (Call.execvp file argv) _ :: rest => (file, argv) :: execCalls rest
  | Event.faulted (Call.execvp file argv) :: rest => (file, argv) :: execCalls rest
  | _ :: rest => execCalls rest

/-- The paths of the `open` calls issued, in order. -/
def openPaths : List Event → List (Option String)
  | [] => []
  | Event.sys (Call.sys_open path _ _) _ :: rest => path :: openPaths rest
  | _ :: rest => openPaths rest

/-- The descriptors passed to `close`, in order. -/
def closeCalls : List Event → List Int
  | [] => []
  | Event.sys (Call.close fd) _ :: rest => fd :: closeCalls rest
  | _ :: rest => closeCalls rest

/-- The kernel's descriptor table of the process after the given events,
starting from the open descriptors `fds`: a successful `open` adds the
descriptor it returns, a successful `pipe` adds its two ends, a successful
`dup2` adds the target, a successful `close` removes its argument. -/
def openFds : List Event → List Int → List Int
  | [], fds => fds
  | Event.sys (Call.sys_open _ _ _) a :: rest, fds =>
      openFds rest (if a.ret = -1 then fds else fds.insert a.ret)
  | Event.sys Call.pipe a :: rest, fds =>
      openFds rest (if a.ret = -1 then fds else (fds.insert a.fd0).insert a.fd1)
  | Event.sys (Call.dup2 _ newfd) a :: rest, fds =>
      openFds rest (if a.ret = -1 then fds else fds.insert newfd)
  | Event.sys (Call.close fd) a :: rest, fds =>
      openFds rest (if a.ret = -1 then fds else fds.erase fd)
  | _ :: rest, fds => openFds rest fds

/-- The token is one of the three separators. -/
def isSeparator (tok : String) : Prop :=
  tok = "|" ∨ tok = ">" ∨ tok = "&"

instance (tok : String) : Decidable (isSeparator tok) := by
  unfold isSeparator
  infer_instance

/-- A stream of answers given by its first entries; every later call
succeeds with `0`. -/
def answersOf (l : List Answer) : Nat → Answer :=
  fun n => l.getD n ⟨0, 0, 0, 0⟩

/-- A call that succeeded with the given return value. -/
def ok (ret : Int) : Answer := ⟨ret, 0, 0, 0⟩

/-- A call that failed with the given error code. -/
def failed (errno : Int) : Answer := ⟨-1, errno, 0, 0⟩

/-- The world in which `process_arglist` calls a strategy: the `signal` call
has been answered (without error) and the ghost event recorded. -/
def afterSignal (answers : Nat → Answer) (s : Strategy) : World :=
  ⟨fun n => answers (n + 1), (answers 0).errno,
    [Event.sys (Call.signal SIGINT Handler.SIG_IGN) (answers 0), Event.invoke s]⟩

/-- The return values of the `open` calls, in order. -/
def openRets : List Event → List Int
  | [] => []
  | Event.sys (Call.sys_open _ _ _) a :: rest => a.ret :: openRets rest
  | _ :: rest => openRets rest

/-! ## Evaluation lemmas -/

@[simp] theorem bind_eq {α β : Type} (m : Sh α) (f : α → Sh β) :
    (m >>= f) = Sh.bind m f := rfl

@[simp] theorem pure_run {α : Type} (a : α) (w : World) :
    (pure a : Sh α) w = (Outcome.returned a, w) := rfl

@[simp] theorem ite_run {α : Type} (c : Prop) [Decidable c] (a b : Sh α) (w : World) :
    (if c then a else b) w = if c then a w else b w := by
  split <;> rfl

/-! Symbolic execution: one rewriting step per statement of the program. -/

theorem bind_sys {β : Type} (c : Call) (f : Answer → Sh β) (w : World) :
    Sh.bind (sys c) f w =
      f (w.answers 0) ⟨fun n => w.answers (n + 1), (w.answers 0).errno,
        w.trace ++ [Event.sys c (w.answers 0)]⟩ := rfl

theorem bind_exit {α β : Type} (code : Int) (f : α → Sh β) (w : World) :
    Sh.bind (exit code) f w = (Outcome.exited code, w) := rfl

theorem bind_getErrno {β : Type} (f : Int → Sh β) (w : World) :
    Sh.bind getErrno f w = f w.errno w := rfl

theorem bind_printError {β : Type} (err : Int) (f : Unit → Sh β) (w : World) :
    Sh.bind (printError err) f w =
      f () ⟨w.answers, w.errno, w.trace ++ [Event.printError err]⟩ := rfl

theorem bind_emit {β : Type} (e : Event) (f : Unit → Sh β) (w : World) :
    Sh.bind (emit e) f w = f () ⟨w.answers, w.errno, w.trace ++ [e]⟩ := rfl

theorem bind_pure {α β : Type} (a : α) (f : α → Sh β) (w : World) :
    Sh.bind (pure a) f w = f a w := rfl

theorem bind_execvp {β : Type} (file : Option String) (argv : List String)
    (f : Int → Sh β) (w : World) :
    Sh.bind (execvp file argv) f w =
      if file = none then
        (Outcome.killed SIGSEGV,
          ⟨w.answers, w.errno, w.trace ++ [Event.faulted (Call.execvp file argv)]⟩)
      else if (w.answers 0).ret = -1 then
        f (-1) ⟨fun n => w.answers (n + 1), (w.answers 0).errno,
          w.trace ++ [Event.sys (Call.execvp file argv) (w.answers 0)]⟩
      else
        (Outcome.replaced file argv, ⟨fun n => w.answers (n + 1), (w.answers 0).errno,
          w.trace ++ [Event.sys (Call.execvp file argv) (w.answers 0)]⟩) := by
  simp only [Sh.bind, execvp, sys]
  split_ifs <;> simp_all

theorem bind_ite {α β : Type} (c : Prop) [Decidable c] (a b : Sh α) (f : α → Sh β)
    (w : World) :
    Sh.bind (if c then a else b) f w = if c then Sh.bind a f w else Sh.bind b f w := by
  split <;> rfl

theorem bind_bind {α β γ : Type} (m : Sh α) (f : α → Sh β) (g : β → Sh γ) (w : World) :
    Sh.bind (Sh.bind m f) g w = Sh.bind m (fun a => Sh.bind (f a) g) w := by
  simp only [Sh.bind]
  rcases m w with ⟨o, w1⟩
  cases o <;> rfl

theorem exit_run {α : Type} (code : Int) (w : World) :
    (exit code : Sh α) w = (Outcome.exited code, w) := rfl

/-- Case analysis on a run given as a decision tree. -/
theorem ite_eq_cases {α : Type} {c : Prop} [Decidable c] {a b r : α} {P : Prop}
    (h : (if c then a else b) = r) (h1 : c → a = r → P) (h2 : ¬ c → b = r → P) : P := by
  by_cases hc : c
  · exact h1 hc (by rw [if_pos hc] at h; exact h)
  · exact h2 hc (by rw [if_neg hc] at h; exact h)

theorem invocations_append (l1 l2 : List Event) :
    invocations (l1 ++ l2) = invocations l1 ++ invocations l2 := by
  induction l1 with
  | nil => rfl
  | cons e l ih => cases e <;> simp [invocations, ih]

theorem forkRets_append (l1 l2 : List Event) :
    forkRets (l1 ++ l2) = forkRets l1 ++ forkRets l2 := by
  induction l1 with
  | nil => rfl
  | cons e l ih =>
    cases e with
    | sys c a => cases c <;> simp [forkRets, ih]
    | printError err => simp [forkRets, ih]
    | invoke s => simp [forkRets, ih]
    | faulted c => cases c <;> simp [forkRets, ih]

theorem waitCalls_append (l1 l2 : List Event) :
    waitCalls (l1 ++ l2) = waitCalls l1 ++ waitCalls l2 := by
  induction l1 with
  | nil => rfl
  | cons e l ih =>
    cases e with
    | sys c a => cases c <;> simp [waitCalls, ih]
    | printError err => simp [waitCalls, ih]
    | invoke s => simp [waitCalls, ih]
    | faulted c => cases c <;> simp [waitCalls, ih]

theorem execCalls_append (l1 l2 : List Event) :
    execCalls (l1 ++ l2) = execCalls l1 ++ execCalls l2 := by
  induction l1 with
  | nil => rfl
  | cons e l ih =>
    cases e with
    | sys c a => cases c <;> simp [execCalls, ih]
    | printError err => simp [execCalls, ih]
    | invoke s => simp [execCalls, ih]
    | faulted c => cases c <;> simp [execCalls, ih]

theorem openPaths_append (l1 l2 : List Event) :
    openPaths (l1 ++ l2) = openPaths l1 ++ openPaths l2 := by
  induction l1 with
  | nil => rfl
  | cons e l ih =>
    cases e with
    | sys c a => cases c <;> simp [openPaths, ih]
    | printError err => simp [openPaths, ih]
    | invoke s => simp [openPaths, ih]
    | faulted c => cases c <;> simp [openPaths, ih]

theorem closeCalls_append (l1 l2 : List Event) :
    closeCalls (l1 ++ l2) = closeCalls l1 ++ closeCalls l2 := by
  induction l1 with
  | nil => rfl
  | cons e l ih =>
    cases e with
    | sys c a => cases c <;> simp [closeCalls, ih]
    | printError err => simp [closeCalls, ih]
    | invoke s => simp [closeCalls, ih]
    | faulted c => cases c <;> simp [closeCalls, ih]

theorem openFds_append (l1 l2 : List Event) (fds : List Int) :
    openFds (l1 ++ l2) fds = openFds l2 (openFds l1 fds) := by
  induction l1 generalizing fds with
  | nil => rfl
  | cons e l ih =>
    cases e with
    | sys c a => cases c <;> simp [openFds, ih]
    | printError err => simp [openFds, ih]
    | invoke s => simp [openFds, ih]
    | faulted c => cases c <;> simp [openFds, ih]

theorem execCalls_afterSignal (answers : Nat → Answer) (s : Strategy) :
    execCalls (afterSignal answers s).trace = [] := rfl

theorem openPaths_afterSignal (answers : Nat → Answer) (s : Strategy) :
    openPaths (afterSignal answers s).trace = [] := rfl

theorem forkRets_afterSignal (answers : Nat → Answer) (s : Strategy) :
    forkRets (afterSignal answers s).trace = [] := rfl

theorem openRets_afterSignal (answers : Nat → Answer) (s : Strategy) :
    openRets (afterSignal answers s).trace = [] := rfl

theorem openRets_append (l1 l2 : List Event) :
    openRets (l1 ++ l2) = openRets l1 ++ openRets l2 := by
  induction l1 with
  | nil => rfl
  | cons e l ih =>
    cases e with
    | sys c a => cases c <;> simp [openRets, ih]
    | printError err => simp [openRets, ih]
    | invoke s => simp [openRets, ih]
    | faulted c => cases c <;> simp [openRets, ih]

/-- The run of `process_arglist` when its `signal` call fails. -/
theorem process_arglist_signal_failed (count : Int) (arglist : List (Option String))
    (answers : Nat → Answer) (hsig : (answers 0).ret = SIG_ERR) :
    process_arglist count arglist (World.init answers) =
      (Outcome.returned 0, ⟨fun n => answers (n + 1), (answers 0).errno,
        [Event.sys (Call.signal SIGINT Handler.SIG_IGN) (answers 0),
          Event.printError (answers 0).errno]⟩) := by
  simp only [process_arglist, World.init, bind_eq, ↓bind_sys, ↓bind_pure, ↓bind_getErrno,
    ↓bind_printError, ↓pure_run, ↓ite_run, hsig, ↓reduceIte, List.nil_append,
    List.cons_append]

/-! ## The scan of `process_arglist` -/

theorem scanArglist_skip (arglist : List (Option String)) (pre : List String)
    (rest : List (Option String)) (index : Nat) (h : ∀ t ∈ pre, ¬ isSeparator t) :
    scanArglist arglist (pre.map some ++ rest) index =
      scanArglist arglist rest (index + pre.length) := by
  induction pre generalizing index with
  | nil => simp
  | cons t pre ih =>
    have ht : ¬ isSeparator t := h t (List.mem_cons_self t pre)
    have hpre : ∀ u ∈ pre, ¬ isSeparator u := fun u hu => h u (List.mem_cons_of_mem t hu)
    simp only [isSeparator, not_or] at ht
    have harith : index + 1 + pre.length = index + (pre.length + 1) := by omega
    simp only [List.map_cons, List.cons_append, scanArglist, ht.1, ht.2.1, ht.2.2, if_false,
      List.append_eq, ih (index + 1) hpre, List.length_cons, harith]

theorem tokens_cases (tokens : List String) :
    (∀ t ∈ tokens, ¬ isSeparator t) ∨
      ∃ pre s post, tokens = pre ++ s :: post ∧ isSeparator s ∧ ∀ t ∈ pre, ¬ isSeparator t := by
  induction tokens with
  | nil => left; simp
  | cons t tokens ih =>
    by_cases ht : isSeparator t
    · right
      exact ⟨[], t, tokens, rfl, ht, by simp⟩
    · rcases ih with h | ⟨pre, s, post, rfl, hs, hpre⟩
      · left
        intro u hu
        rcases List.mem_cons.1 hu with rfl | hu
        · exact ht
        · exact h u hu
      · right
        refine ⟨t :: pre, s, post, rfl, hs, ?_⟩
        intro u hu
        rcases List.mem_cons.1 hu with rfl | hu
        · exact ht
        · exact hpre u hu

theorem arglistOf_split (pre : List String) (s : String) (post : List String) :
    arglistOf (pre ++ s :: post) = pre.map some ++ some s :: arglistOf post := by
  simp [arglistOf]

theorem scanArglist_pipe (arglist : List (Option String)) (pre post : List String)
    (hpre : ∀ t ∈ pre, ¬ isSeparator t) (w : World) :
    scanArglist arglist (arglistOf (pre ++ "|" :: post)) 0 w =
      execPiping arglist pre.length
        ⟨w.answers, w.errno, w.trace ++ [Event.invoke (Strategy.execPiping pre.length)]⟩ := by
  rw [arglistOf_split, scanArglist_skip _ _ _ _ hpre]
  simp [scanArglist, bind_emit]

theorem scanArglist_redir (arglist : List (Option String)) (pre post : List String)
    (hpre : ∀ t ∈ pre, ¬ isSeparator t) (w : World) :
    scanArglist arglist (arglistOf (pre ++ ">" :: post)) 0 w =
      execRedirOutput arglist pre.length
        ⟨w.answers, w.errno, w.trace ++ [Event.invoke (Strategy.execRedirOutput pre.length)]⟩ := by
  rw [arglistOf_split, scanArglist_skip _ _ _ _ hpre]
  simp [scanArglist, bind_emit]

theorem scanArglist_bg (arglist : List (Option String)) (pre post : List String)
    (hpre : ∀ t ∈ pre, ¬ isSeparator t) (w : World) :
    scanArglist arglist (arglistOf (pre ++ "&" :: post)) 0 w =
      execBackground arglist pre.length
        ⟨w.answers, w.errno, w.trace ++ [Event.invoke (Strategy.execBackground pre.length)]⟩ := by
  rw [arglistOf_split, scanArglist_skip _ _ _ _ hpre]
  simp [scanArglist, bind_emit]

theorem scanArglist_plain (arglist : List (Option String)) (tokens : List String)
    (htok : ∀ t ∈ tokens, ¬ isSeparator t) (w : World) :
    scanArglist arglist (arglistOf tokens) 0 w =
      execCommand arglist
        ⟨w.answers, w.errno, w.trace ++ [Event.invoke Strategy.execCommand]⟩ := by
  rw [arglistOf, scanArglist_skip _ _ _ _ htok]
  simp [scanArglist, bind_emit]

theorem process_arglist_pipe (count : Int) (pre post : List String)
    (answers : Nat → Answer) (hsig : (answers 0).ret ≠ SIG_ERR)
    (hpre : ∀ t ∈ pre, ¬ isSeparator t) :
    process_arglist count (arglistOf (pre ++ "|" :: post)) (World.init answers) =
      execPiping (arglistOf (pre ++ "|" :: post)) pre.length
        (afterSignal answers (Strategy.execPiping pre.length)) := by
  simp only [process_arglist, World.init, bind_eq, ↓bind_sys, ↓bind_pure, ↓ite_run, hsig,
    ↓reduceIte, afterSignal, List.nil_append, List.cons_append]
  rw [scanArglist_pipe _ _ _ hpre]
  rfl

theorem process_arglist_redir (count : Int) (pre post : List String)
    (answers : Nat → Answer) (hsig : (answers 0).ret ≠ SIG_ERR)
    (hpre : ∀ t ∈ pre, ¬ isSeparator t) :
    process_arglist count (arglistOf (pre ++ ">" :: post)) (World.init answers) =
      execRedirOutput (arglistOf (pre ++ ">" :: post)) pre.length
        (afterSignal answers (Strategy.execRedirOutput pre.length)) := by
  simp only [process_arglist, World.init, bind_eq, ↓bind_sys, ↓bind_pure, ↓ite_run, hsig,
    ↓reduceIte, afterSignal, List.nil_append, List.cons_append]
  rw [scanArglist_redir _ _ _ hpre]
  rfl

theorem process_arglist_bg (count : Int) (pre post : List String)
    (answers : Nat → Answer) (hsig : (answers 0).ret ≠ SIG_ERR)
    (hpre : ∀ t ∈ pre, ¬ isSeparator t) :
    process_arglist count (arglistOf (pre ++ "&" :: post)) (World.init answers) =
      execBackground (arglistOf (pre ++ "&" :: post)) pre.length
        (afterSignal answers (Strategy.execBackground pre.length)) := by
  simp only [process_arglist, World.init, bind_eq, ↓bind_sys, ↓bind_pure, ↓ite_run, hsig,
    ↓reduceIte, afterSignal, List.nil_append, List.cons_append]
  rw [scanArglist_bg _ _ _ hpre]
  rfl

theorem process_arglist_plain (count : Int) (tokens : List String)
    (answers : Nat → Answer) (hsig : (answers 0).ret ≠ SIG_ERR)
    (htok : ∀ t ∈ tokens, ¬ isSeparator t) :
    process_arglist count (arglistOf tokens) (World.init answers) =
      execCommand (arglistOf tokens) (afterSignal answers Strategy.execCommand) := by
  simp only [process_arglist, World.init, bind_eq, ↓bind_sys, ↓bind_pure, ↓ite_run, hsig,
    ↓reduceIte, afterSignal, List.nil_append, List.cons_append]
  rw [scanArglist_plain _ _ htok]
  rfl

/-! ## What each strategy does, for every stream of answers -/

theorem execCommand_summary (arglist : List (Option String)) (w : World) :
    ∃ evs, (execCommand arglist w).2.trace = w.trace ++ evs ∧
      invocations evs = [] ∧ openRets evs = [] ∧ openPaths evs = [] ∧
      (∀ e ∈ execCalls evs, e = (cell arglist 0, argvOf arglist)) ∧
      (0 ∉ forkRets evs →
        (execCommand arglist w).1 = Outcome.returned 0 ∨
          (execCommand arglist w).1 = Outcome.returned 1) := by
  generalize hr : execCommand arglist w = r
  simp only [execCommand, bind_eq, ↓bind_sys, ↓bind_exit, ↓bind_getErrno,
    ↓bind_printError, ↓bind_pure, ↓bind_execvp, ↓bind_ite, ↓bind_bind, ↓pure_run, ↓ite_run,
    ↓exit_run, Nat.zero_add, Nat.reduceAdd, List.nil_append, List.append_assoc,
    List.cons_append, ↓reduceIte] at hr
  repeat' (refine ite_eq_cases hr ?_ ?_ <;> clear hr <;> intro _ hr)
  all_goals subst hr
  all_goals refine ⟨_, rfl, ?_⟩
  all_goals simp_all [invocations, openRets, openPaths, execCalls, forkRets]

theorem execBackground_summary (arglist : List (Option String)) (index : Nat) (w : World) :
    ∃ evs, (execBackground arglist index w).2.trace = w.trace ++ evs ∧
      invocations evs = [] ∧ openRets evs = [] ∧ openPaths evs = [] ∧
      (∀ e ∈ execCalls evs,
        e = (cell (arglist.set index none) 0, argvOf (arglist.set index none))) ∧
      (0 ∉ forkRets evs →
        (execBackground arglist index w).1 = Outcome.returned 0 ∨
          (execBackground arglist index w).1 = Outcome.returned 1) ∧
      (∀ c ∈ waitCalls evs, c.2 = WNOHANG) := by
  generalize hr : execBackground arglist index w = r
  simp only [execBackground, bind_eq, ↓bind_sys, ↓bind_exit, ↓bind_getErrno,
    ↓bind_printError, ↓bind_pure, ↓bind_execvp, ↓bind_ite, ↓bind_bind, ↓pure_run, ↓ite_run,
    ↓exit_run, Nat.zero_add, Nat.reduceAdd, List.nil_append, List.append_assoc,
    List.cons_append, ↓reduceIte] at hr
  repeat' (refine ite_eq_cases hr ?_ ?_ <;> clear hr <;> intro _ hr)
  all_goals subst hr
  all_goals refine ⟨_, rfl, ?_⟩
  all_goals simp_all [invocations, openRets, openPaths, execCalls, forkRets, waitCalls]

theorem execRedirOutput_summary (arglist : List (Option String)) (index : Nat) (w : World) :
    ∃ evs, (execRedirOutput arglist index w).2.trace = w.trace ++ evs ∧
      invocations evs = [] ∧ openPaths evs = [cell arglist (index + 1)] ∧
      (∀ e ∈ execCalls evs,
        e = (cell (arglist.set index none) 0, argvOf (arglist.set index none))) ∧
      (0 ∉ forkRets evs →
        ((execRedirOutput arglist index w).1 = Outcome.exited 1 ∧ -1 ∈ openRets evs) ∨
          (((execRedirOutput arglist index w).1 = Outcome.returned 0 ∨
              (execRedirOutput arglist index w).1 = Outcome.returned 1) ∧
            -1 ∉ openRets evs)) := by
  generalize hr : execRedirOutput arglist index w = r
  simp only [execRedirOutput, bind_eq, ↓bind_sys, ↓bind_exit, ↓bind_getErrno,
    ↓bind_printError, ↓bind_pure, ↓bind_execvp, ↓bind_ite, ↓bind_bind, ↓pure_run, ↓ite_run,
    ↓exit_run, Nat.zero_add, Nat.reduceAdd, List.nil_append, List.append_assoc,
    List.cons_append, ↓reduceIte] at hr
  repeat' (refine ite_eq_cases hr ?_ ?_ <;> clear hr <;> intro _ hr)
  all_goals subst hr
  all_goals refine ⟨_, rfl, ?_⟩
  all_goals simp_all [invocations, openRets, openPaths, execCalls, forkRets]
  all_goals tauto

theorem execPiping_summary (arglist : List (Option String)) (index : Nat) (w : World) :
    ∃ evs, (execPiping arglist index w).2.trace = w.trace ++ evs ∧
      invocations evs = [] ∧ openRets evs = [] ∧ openPaths evs = [] ∧
      (∀ e ∈ execCalls evs,
        (forkRets evs = [0] ∧
          e = (cell (arglist.set index none) 0, argvOf (arglist.set index none))) ∨
        (∃ p, p ≠ 0 ∧ forkRets evs = [p, 0] ∧
          e = (cell ((arglist.set index none).drop (index + 1)) 0,
                argvOf ((arglist.set index none).drop (index + 1))))) ∧
      (0 ∉ forkRets evs →
        (execPiping arglist index w).1 = Outcome.returned 0 ∨
          (execPiping arglist index w).1 = Outcome.returned 1) := by
  generalize hr : execPiping arglist index w = r
  simp only [execPiping, bind_eq, ↓bind_sys, ↓bind_exit, ↓bind_getErrno,
    ↓bind_printError, ↓bind_pure, ↓bind_execvp, ↓bind_ite, ↓bind_bind, ↓pure_run, ↓ite_run,
    ↓exit_run, Nat.zero_add, Nat.reduceAdd, List.nil_append, List.append_assoc,
    List.cons_append, ↓reduceIte] at hr
  repeat' (refine ite_eq_cases hr ?_ ?_ <;> clear hr <;> intro _ hr)
  all_goals subst hr
  all_goals refine ⟨_, rfl, ?_⟩
  all_goals simp_all [invocations, openRets, openPaths, execCalls, forkRets]

/-! ## Argument vectors after truncation -/

theorem argvOf_tokens (pre : List String) (rest : List (Option String)) :
    argvOf (pre.map some ++ none :: rest) = pre := by
  induction pre with
  | nil => rfl
  | cons t pre ih => simp [argvOf, ih]

theorem cell_zero_tokens (pre : List String) (rest : List (Option String)) :
    cell (pre.map some ++ none :: rest) 0 = pre.head? := by
  cases pre <;> simp [cell]

theorem argvOf_arglistOf (tokens : List String) : argvOf (arglistOf tokens) = tokens :=
  argvOf_tokens tokens []

theorem cell_zero_arglistOf (tokens : List String) :
    cell (arglistOf tokens) 0 = tokens.head? :=
  cell_zero_tokens tokens []

theorem set_separator (pre : List String) (s : String) (post : List String) :
    (arglistOf (pre ++ s :: post)).set pre.length none =
      pre.map some ++ none :: arglistOf post := by
  rw [arglistOf_split]
  induction pre with
  | nil => rfl
  | cons t pre ih => simp [ih]

theorem drop_after_separator (pre : List String) (rest : List (Option String)) :
    (pre.map some ++ none :: rest).drop (pre.length + 1) = rest := by
  induction pre with
  | nil => rfl
  | cons t pre ih => simpa using ih

theorem cell_after_separator (pre : List String) (s : String) (post : List String) :
    cell (arglistOf (pre ++ s :: post)) (pre.length + 1) = post.head? := by
  rw [arglistOf_split, ← cell_zero_arglistOf post]
  induction pre with
  | nil => simp [cell]
  | cons t pre ih => simpa [cell] using ih

/-! ## Which strategy `process_arglist` calls -/

theorem process_arglist_pipe_invocations (count : Int) (pre post : List String)
    (answers : Nat → Answer) (hsig : (answers 0).ret ≠ SIG_ERR)
    (hpre : ∀ t ∈ pre, ¬ isSeparator t) :
    invocations (process_arglist count (arglistOf (pre ++ "|" :: post))
        (World.init answers)).2.trace = [Strategy.execPiping pre.length] := by
  rw [process_arglist_pipe count pre post answers hsig hpre]
  obtain ⟨evs, htr, hinv, -⟩ := execPiping_summary (arglistOf (pre ++ "|" :: post))
    pre.length (afterSignal answers (Strategy.execPiping pre.length))
  rw [htr, invocations_append, hinv]
  rfl

theorem process_arglist_redir_invocations (count : Int) (pre post : List String)
    (answers : Nat → Answer) (hsig : (answers 0).ret ≠ SIG_ERR)
    (hpre : ∀ t ∈ pre, ¬ isSeparator t) :
    invocations (process_arglist count (arglistOf (pre ++ ">" :: post))
        (World.init answers)).2.trace = [Strategy.execRedirOutput pre.length] := by
  rw [process_arglist_redir count pre post answers hsig hpre]
  obtain ⟨evs, htr, hinv, -⟩ := execRedirOutput_summary (arglistOf (pre ++ ">" :: post))
    pre.length (afterSignal answers (Strategy.execRedirOutput pre.length))
  rw [htr, invocations_append, hinv]
  rfl

theorem process_arglist_bg_invocations (count : Int) (pre post : List String)
    (answers : Nat → Answer) (hsig : (answers 0).ret ≠ SIG_ERR)
    (hpre : ∀ t ∈ pre, ¬ isSeparator t) :
    invocations (process_arglist count (arglistOf (pre ++ "&" :: post))
        (World.init answers)).2.trace = [Strategy.execBackground pre.length] := by
  rw [process_arglist_bg count pre post answers hsig hpre]
  obtain ⟨evs, htr, hinv, -⟩ := execBackground_summary (arglistOf (pre ++ "&" :: post))
    pre.length (afterSignal answers (Strategy.execBackground pre.length))
  rw [htr, invocations_append, hinv]
  rfl

theorem process_arglist_plain_invocations (count : Int) (tokens : List String)
    (answers : Nat → Answer) (hsig : (answers 0).ret ≠ SIG_ERR)
    (htok : ∀ t ∈ tokens, ¬ isSeparator t) :
    invocations (process_arglist count (arglistOf tokens)
        (World.init answers)).2.trace = [Strategy.execCommand] := by
  rw [process_arglist_plain count tokens answers hsig htok]
  obtain ⟨evs, htr, hinv, -⟩ := execCommand_summary (arglistOf tokens)
    (afterSignal answers Strategy.execCommand)
  rw [htr, invocations_append, hinv]
  rfl

/-! ## The child side of the four strategies -/

/-- The empty command `&`: the child of `execBackground` calls `execvp` with a
`NULL` file name and an empty vector, and is killed inside the call. -/
theorem empty_command_child_killed :
    (execBackground (arglistOf ["&"]) 0 (World.init (answersOf [ok 0, ok 0]))).1 =
        Outcome.killed SIGSEGV ∧
      execCalls (execBackground (arglistOf ["&"]) 0
        (World.init (answersOf [ok 0, ok 0]))).2.trace = [(none, [])] := by
  decide

/-! ## When the shell process exits -/

theorem prepare_exit (w : World) :
    ((∃ code, (prepare w).1 = Outcome.exited code) ↔
        ((w.answers 0).ret ≠ SIG_ERR ∧ (w.answers 1).ret = -1)) ∧
      ((∃ code, (prepare w).1 = Outcome.exited code) → (prepare w).1 = Outcome.exited 1) ∧
      ((w.answers 0).ret = SIG_ERR → (prepare w).1 = Outcome.returned (-1)) ∧
      ((w.answers 0).ret ≠ SIG_ERR → (w.answers 1).ret ≠ -1 →
        (prepare w).1 = Outcome.returned 0) := by
  generalize hr : prepare w = r
  simp only [prepare, register_SIGCHLD_handler, bind_eq, ↓bind_sys, ↓bind_exit, ↓bind_getErrno,
    ↓bind_printError, ↓bind_pure, ↓bind_execvp, ↓bind_ite, ↓bind_bind, ↓pure_run, ↓ite_run,
    ↓exit_run, Nat.zero_add, Nat.reduceAdd, List.nil_append, List.append_assoc,
    List.cons_append, ↓reduceIte] at hr
  repeat' (refine ite_eq_cases hr ?_ ?_ <;> clear hr <;> intro _ hr)
  all_goals subst hr
  all_goals simp_all

theorem process_arglist_exit (count : Int) (tokens : List String) (answers : Nat → Answer)
    (hparent : 0 ∉ forkRets
      (process_arglist count (arglistOf tokens) (World.init answers)).2.trace) :
    ((∃ code, (process_arglist count (arglistOf tokens) (World.init answers)).1 =
          Outcome.exited code) ↔
        ((∃ i, invocations
            (process_arglist count (arglistOf tokens) (World.init answers)).2.trace =
              [Strategy.execRedirOutput i]) ∧
          -1 ∈ openRets
            (process_arglist count (arglistOf tokens) (World.init answers)).2.trace)) ∧
    ((process_arglist count (arglistOf tokens) (World.init answers)).1 = Outcome.exited 1 ∨
      (process_arglist count (arglistOf tokens) (World.init answers)).1 = Outcome.returned 0 ∨
      (process_arglist count (arglistOf tokens) (World.init answers)).1 = Outcome.returned 1) := by
  by_cases hsig : (answers 0).ret = SIG_ERR
  · rw [process_arglist_signal_failed count _ answers hsig]
    simp [invocations]
  rcases tokens_cases tokens with hnone | ⟨pre, s, post, rfl, hs, hpre⟩
  · have hinv := process_arglist_plain_invocations count tokens answers hsig hnone
    rw [hinv]
    rw [process_arglist_plain count tokens answers hsig hnone] at hparent ⊢
    obtain ⟨evs, htr, -, -, -, -, hpar⟩ := execCommand_summary (arglistOf tokens)
      (afterSignal answers Strategy.execCommand)
    rw [htr, forkRets_append, forkRets_afterSignal, List.nil_append] at hparent
    rcases hpar hparent with h | h <;> simp [h]
  · rcases hs with rfl | rfl | rfl
    · have hinv := process_arglist_pipe_invocations count pre post answers hsig hpre
      rw [hinv]
      rw [process_arglist_pipe count pre post answers hsig hpre] at hparent ⊢
      obtain ⟨evs, htr, -, -, -, -, hpar⟩ := execPiping_summary
        (arglistOf (pre ++ "|" :: post)) pre.length
        (afterSignal answers (Strategy.execPiping pre.length))
      rw [htr, forkRets_append, forkRets_afterSignal, List.nil_append] at hparent
      rcases hpar hparent with h | h <;> simp [h]
    · have hinv := process_arglist_redir_invocations count pre post answers hsig hpre
      rw [hinv]
      rw [process_arglist_redir count pre post answers hsig hpre] at hparent ⊢
      obtain ⟨evs, htr, -, -, -, hpar⟩ := execRedirOutput_summary
        (arglistOf (pre ++ ">" :: post)) pre.length
        (afterSignal answers (Strategy.execRedirOutput pre.length))
      rw [htr, forkRets_append, forkRets_afterSignal, List.nil_append] at hparent
      rw [htr, openRets_append, openRets_afterSignal, List.nil_append]
      rcases hpar hparent with ⟨h, ho⟩ | ⟨h | h, ho⟩ <;> simp [h, ho]
    · have hinv := process_arglist_bg_invocations count pre post answers hsig hpre
      rw [hinv]
      rw [process_arglist_bg count pre post answers hsig hpre] at hparent ⊢
      obtain ⟨evs, htr, -, -, -, -, hpar, -⟩ := execBackground_summary
        (arglistOf (pre ++ "&" :: post)) pre.length
        (afterSignal answers (Strategy.execBackground pre.length))
      rw [htr, forkRets_append, forkRets_afterSignal, List.nil_append] at hparent
      rcases hpar hparent with h | h <;> simp [h]

/-! ## The claims -/

/-- C1: when the `signal` call at its start succeeds, `process_arglist` calls
exactly one strategy.  If the leftmost separator of the tokens is "|" (resp.
">", "&") at index `i` (the tokens are `pre ++ sep :: post`, no token of `pre`
is a separator, `i = pre.length`), the run is the run of `execPiping` (resp.
`execRedirOutput`, `execBackground`) on the array with index `i`, whatever
`post` holds; if no token is a separator it is the run of `execCommand`; and
`execCommand` is the strategy called if and only if no token is a separator. -/
theorem process_arglist_dispatch (count : Int) (tokens : List String)
    (answers : Nat → Answer) (hsig : (answers 0).ret ≠ SIG_ERR) :
    (∀ pre post, tokens = pre ++ "|" :: post → (∀ t ∈ pre, ¬ isSeparator t) →
      process_arglist count (arglistOf tokens) (World.init answers) =
          execPiping (arglistOf tokens) pre.length
            (afterSignal answers (Strategy.execPiping pre.length)) ∧
        invocations (process_arglist count (arglistOf tokens) (World.init answers)).2.trace =
          [Strategy.execPiping pre.length]) ∧
    (∀ pre post, tokens = pre ++ ">" :: post → (∀ t ∈ pre, ¬ isSeparator t) →
      process_arglist count (arglistOf tokens) (World.init answers) =
          execRedirOutput (arglistOf tokens) pre.length
            (afterSignal answers (Strategy.execRedirOutput pre.length)) ∧
        invocations (process_arglist count (arglistOf tokens) (World.init answers)).2.trace =
          [Strategy.execRedirOutput pre.length]) ∧
    (∀ pre post, tokens = pre ++ "&" :: post → (∀ t ∈ pre, ¬ isSeparator t) →
      process_arglist count (arglistOf tokens) (World.init answers) =
          execBackground (arglistOf tokens) pre.length
            (afterSignal answers (Strategy.execBackground pre.length)) ∧
        invocations (process_arglist count (arglistOf tokens) (World.init answers)).2.trace =
          [Strategy.execBackground pre.length]) ∧
    ((∀ t ∈ tokens, ¬ isSeparator t) →
      process_arglist count (arglistOf tokens) (World.init answers) =
        execCommand (arglistOf tokens) (afterSignal answers Strategy.execCommand)) ∧
    (invocations (process_arglist count (arglistOf tokens) (World.init answers)).2.trace =
        [Strategy.execCommand] ↔ ∀ t ∈ tokens, ¬ isSeparator t) := by
  refine ⟨?_, ?_, ?_, ?_, ?_, ?_⟩
  · rintro pre post rfl hpre
    exact ⟨process_arglist_pipe count pre post answers hsig hpre,
      process_arglist_pipe_invocations count pre post answers hsig hpre⟩
  · rintro pre post rfl hpre
    exact ⟨process_arglist_redir count pre post answers hsig hpre,
      process_arglist_redir_invocations count pre post answers hsig hpre⟩
  · rintro pre post rfl hpre
    exact ⟨process_arglist_bg count pre post answers hsig hpre,
      process_arglist_bg_invocations count pre post answers hsig hpre⟩
  · exact process_arglist_plain count tokens answers hsig
  · intro h
    rcases tokens_cases tokens with hnone | ⟨pre, s, post, rfl, hs, hpre⟩
    · exact hnone
    · exfalso
      rcases hs with rfl | rfl | rfl
      · rw [process_arglist_pipe_invocations count pre post answers hsig hpre] at h
        simp at h
      · rw [process_arglist_redir_invocations count pre post answers hsig hpre] at h
        simp at h
      · rw [process_arglist_bg_invocations count pre post answers hsig hpre] at h
        simp at h
  · exact process_arglist_plain_invocations count tokens answers hsig

/-- C1, at a concrete run: the tokens `ls | wc > out &`; the leftmost
separator is "|" at index 1 and `execPiping` is the one strategy called. -/
theorem process_arglist_dispatch_witness :
    invocations (process_arglist 5 (arglistOf ["ls", "|", "wc", ">", "out", "&"])
        (World.init (answersOf []))).2.trace = [Strategy.execPiping 1] :=
  ((process_arglist_dispatch 5 ["ls", "|", "wc", ">", "out", "&"] (answersOf [])
      (by decide)).1 ["ls"] ["wc", ">", "out", "&"] rfl (by decide)).2

/-- C2: the argument vector of every `execvp` call of a run of
`process_arglist`, whatever the answers to the calls.  With no separator
among the tokens it is the whole token list.  With the leftmost separator at
index `i` (tokens `pre ++ sep :: post`, `pre` free of separators): for ">"
and "&" it is `pre`, and for ">" the path of every `open` is the token after
the separator (`NULL` if there is none); for "|" it is `pre` in child 1 (the
first `fork` answered `0`) and `post` in child 2 (the second `fork` answered
`0`).  In every case the file looked up is the first entry of the vector
(`NULL` if the vector is empty).  Each of these `execvp` calls does occur:
in the run where every call succeeds and `fork` answers `0`, and, for child
2, where the first `fork` answers pid 100; there, when the vector is not
empty, the image is replaced. -/
theorem execvp_argument_vector (count : Int) (tokens : List String) :
    ((∀ t ∈ tokens, ¬ isSeparator t) →
      (∀ answers : Nat → Answer,
        ∀ e ∈ execCalls (process_arglist count (arglistOf tokens) (World.init answers)).2.trace,
          e = (tokens.head?, tokens)) ∧
      (execCalls (process_arglist count (arglistOf tokens) (World.init (answersOf []))).2.trace =
          [(tokens.head?, tokens)] ∧
        (tokens ≠ [] →
          (process_arglist count (arglistOf tokens) (World.init (answersOf []))).1 =
            Outcome.replaced tokens.head? tokens))) ∧
    (∀ pre post, tokens = pre ++ ">" :: post → (∀ t ∈ pre, ¬ isSeparator t) →
      (∀ answers : Nat → Answer,
        (∀ e ∈ execCalls (process_arglist count (arglistOf tokens) (World.init answers)).2.trace,
          e = (pre.head?, pre)) ∧
        (∀ p ∈ openPaths (process_arglist count (arglistOf tokens) (World.init answers)).2.trace,
          p = post.head?)) ∧
      (execCalls (process_arglist count (arglistOf tokens) (World.init (answersOf []))).2.trace =
          [(pre.head?, pre)] ∧
        (pre ≠ [] →
          (process_arglist count (arglistOf tokens) (World.init (answersOf []))).1 =
            Outcome.replaced pre.head? pre) ∧
        openPaths (process_arglist count (arglistOf tokens) (World.init (answersOf []))).2.trace =
          [post.head?])) ∧
    (∀ pre post, tokens = pre ++ "&" :: post → (∀ t ∈ pre, ¬ isSeparator t) →
      (∀ answers : Nat → Answer,
        ∀ e ∈ execCalls (process_arglist count (arglistOf tokens) (World.init answers)).2.trace,
          e = (pre.head?, pre)) ∧
      (execCalls (process_arglist count (arglistOf tokens) (World.init (answersOf []))).2.trace =
          [(pre.head?, pre)] ∧
        (pre ≠ [] →
          (process_arglist count (arglistOf tokens) (World.init (answersOf []))).1 =
            Outcome.replaced pre.head? pre))) ∧
    (∀ pre post, tokens = pre ++ "|" :: post → (∀ t ∈ pre, ¬ isSeparator t) →
      (∀ answers : Nat → Answer,
        ∀ e ∈ execCalls (process_arglist count (arglistOf tokens) (World.init answers)).2.trace,
          (forkRets (process_arglist count (arglistOf tokens) (World.init answers)).2.trace = [0] ∧
            e = (pre.head?, pre)) ∨
          (∃ p, p ≠ 0 ∧
            forkRets (process_arglist count (arglistOf tokens) (World.init answers)).2.trace
              = [p, 0] ∧
            e = (post.head?, post))) ∧
      (execCalls (process_arglist count (arglistOf tokens) (World.init (answersOf []))).2.trace =
          [(pre.head?, pre)] ∧
        (pre ≠ [] →
          (process_arglist count (arglistOf tokens) (World.init (answersOf []))).1 =
            Outcome.replaced pre.head? pre)) ∧
      (execCalls (process_arglist count (arglistOf tokens) (World.init (answersOf [ok 0, ok 0, ok 100]))).2.trace =
          [(post.head?, post)] ∧
        (post ≠ [] →
          (process_arglist count (arglistOf tokens) (World.init (answersOf [ok 0, ok 0, ok 100]))).1 =
            Outcome.replaced post.head? post))) := by
  refine ⟨?_, ?_, ?_, ?_⟩
  · intro htok
    refine ⟨?_, ?_⟩
    · intro answers e he
      by_cases hsig : (answers 0).ret = SIG_ERR
      · rw [process_arglist_signal_failed count _ answers hsig] at he
        simp [execCalls] at he
      · rw [process_arglist_plain count tokens answers hsig htok] at he
        obtain ⟨evs, htr, -, -, -, hexec, -⟩ := execCommand_summary (arglistOf tokens)
          (afterSignal answers Strategy.execCommand)
        rw [htr, execCalls_append, execCalls_afterSignal, List.nil_append] at he
        rw [hexec e he, cell_zero_arglistOf, argvOf_arglistOf]
    · rw [process_arglist_plain count tokens (answersOf []) (by decide) htok]
      simp only [execCommand, afterSignal, bind_eq, ↓bind_sys, ↓bind_exit, ↓bind_getErrno,
        ↓bind_printError, ↓bind_pure, ↓bind_execvp, ↓bind_ite, ↓bind_bind, ↓pure_run,
        ↓ite_run, ↓exit_run, Nat.zero_add, Nat.reduceAdd, List.nil_append, List.append_assoc,
        List.cons_append]
      simp only [set_separator, cell_zero_tokens, argvOf_tokens, drop_after_separator,
        cell_zero_arglistOf, argvOf_arglistOf, cell_after_separator]
      rcases tokens with _ | ⟨t, l⟩ <;>
        simp [answersOf, ok, SIG_ERR, execCalls, openPaths]
  · rintro pre post rfl hpre
    refine ⟨?_, ?_⟩
    · intro answers
      by_cases hsig : (answers 0).ret = SIG_ERR
      · rw [process_arglist_signal_failed count _ answers hsig]
        simp [execCalls, openPaths]
      · rw [process_arglist_redir count pre post answers hsig hpre]
        obtain ⟨evs, htr, -, hpaths, hexec, -⟩ := execRedirOutput_summary
          (arglistOf (pre ++ ">" :: post)) pre.length
          (afterSignal answers (Strategy.execRedirOutput pre.length))
        rw [htr, execCalls_append, execCalls_afterSignal, List.nil_append,
          openPaths_append, openPaths_afterSignal, List.nil_append, hpaths]
        refine ⟨?_, ?_⟩
        · intro e he
          rw [hexec e he, set_separator, cell_zero_tokens, argvOf_tokens]
        · intro p hp
          rw [List.mem_singleton.1 hp, cell_after_separator]
    · rw [process_arglist_redir count pre post (answersOf []) (by decide) hpre]
      simp only [execRedirOutput, afterSignal, bind_eq, ↓bind_sys, ↓bind_exit, ↓bind_getErrno,
        ↓bind_printError, ↓bind_pure, ↓bind_execvp, ↓bind_ite, ↓bind_bind, ↓pure_run,
        ↓ite_run, ↓exit_run, Nat.zero_add, Nat.reduceAdd, List.nil_append, List.append_assoc,
        List.cons_append]
      simp only [set_separator, cell_zero_tokens, argvOf_tokens, drop_after_separator,
        cell_zero_arglistOf, argvOf_arglistOf, cell_after_separator]
      rcases pre with _ | ⟨t, l⟩ <;>
        simp [answersOf, ok, SIG_ERR, execCalls, openPaths]
  · rintro pre post rfl hpre
    refine ⟨?_, ?_⟩
    · intro answers e he
      by_cases hsig : (answers 0).ret = SIG_ERR
      · rw [process_arglist_signal_failed count _ answers hsig] at he
        simp [execCalls] at he
      · rw [process_arglist_bg count pre post answers hsig hpre] at he
        obtain ⟨evs, htr, -, -, -, hexec, -, -⟩ := execBackground_summary
          (arglistOf (pre ++ "&" :: post)) pre.length
          (afterSignal answers (Strategy.execBackground pre.length))
        rw [htr, execCalls_append, execCalls_afterSignal, List.nil_append] at he
        rw [hexec e he, set_separator, cell_zero_tokens, argvOf_tokens]
    · rw [process_arglist_bg count pre post (answersOf []) (by decide) hpre]
      simp only [execBackground, afterSignal, bind_eq, ↓bind_sys, ↓bind_exit, ↓bind_getErrno,
        ↓bind_printError, ↓bind_pure, ↓bind_execvp, ↓bind_ite, ↓bind_bind, ↓pure_run,
        ↓ite_run, ↓exit_run, Nat.zero_add, Nat.reduceAdd, List.nil_append, List.append_assoc,
        List.cons_append]
      simp only [set_separator, cell_zero_tokens, argvOf_tokens, drop_after_separator,
        cell_zero_arglistOf, argvOf_arglistOf, cell_after_separator]
      rcases pre with _ | ⟨t, l⟩ <;>
        simp [answersOf, ok, SIG_ERR, execCalls, openPaths]
  · rintro pre post rfl hpre
    refine ⟨?_, ?_, ?_⟩
    · intro answers e he
      by_cases hsig : (answers 0).ret = SIG_ERR
      · rw [process_arglist_signal_failed count _ answers hsig] at he
        simp [execCalls] at he
      · rw [process_arglist_pipe count pre post answers hsig hpre] at he ⊢
        obtain ⟨evs, htr, -, -, -, hexec, -⟩ := execPiping_summary
          (arglistOf (pre ++ "|" :: post)) pre.length
          (afterSignal answers (Strategy.execPiping pre.length))
        rw [htr, execCalls_append, execCalls_afterSignal, List.nil_append] at he
        rw [htr, forkRets_append, forkRets_afterSignal, List.nil_append]
        have h := hexec e he
        rw [set_separator, cell_zero_tokens, argvOf_tokens, drop_after_separator,
          cell_zero_arglistOf, argvOf_arglistOf] at h
        exact h
    · rw [process_arglist_pipe count pre post (answersOf []) (by decide) hpre]
      simp only [execPiping, afterSignal, bind_eq, ↓bind_sys, ↓bind_exit, ↓bind_getErrno,
        ↓bind_printError, ↓bind_pure, ↓bind_execvp, ↓bind_ite, ↓bind_bind, ↓pure_run,
        ↓ite_run, ↓exit_run, Nat.zero_add, Nat.reduceAdd, List.nil_append, List.append_assoc,
        List.cons_append]
      simp only [set_separator, cell_zero_tokens, argvOf_tokens, drop_after_separator,
        cell_zero_arglistOf, argvOf_arglistOf, cell_after_separator]
      rcases pre with _ | ⟨t, l⟩ <;>
        simp [answersOf, ok, SIG_ERR, execCalls, openPaths]
    · rw [process_arglist_pipe count pre post (answersOf [ok 0, ok 0, ok 100]) (by decide) hpre]
      simp only [execPiping, afterSignal, bind_eq, ↓bind_sys, ↓bind_exit, ↓bind_getErrno,
        ↓bind_printError, ↓bind_pure, ↓bind_execvp, ↓bind_ite, ↓bind_bind, ↓pure_run,
        ↓ite_run, ↓exit_run, Nat.zero_add, Nat.reduceAdd, List.nil_append, List.append_assoc,
        List.cons_append]
      simp only [set_separator, cell_zero_tokens, argvOf_tokens, drop_after_separator,
        cell_zero_arglistOf, argvOf_arglistOf, cell_after_separator]
      rcases post with _ | ⟨t, l⟩ <;>
        simp [answersOf, ok, SIG_ERR, execCalls, openPaths]

/-- C2, at a concrete run: the tokens `echo hi > /tmp/out.txt`; the child
replaces its image with `echo` and the argument vector `echo hi`. -/
theorem execvp_argument_vector_witness :
    (process_arglist 4 (arglistOf ["echo", "hi", ">", "/tmp/out.txt"])
        (World.init (answersOf []))).1 = Outcome.replaced (some "echo") ["echo", "hi"] :=
  ((execvp_argument_vector 4 ["echo", "hi", ">", "/tmp/out.txt"]).2.1
    ["echo", "hi"] ["/tmp/out.txt"] rfl (by decide)).2.2.1 (by decide)

/-- C3: in the parent (the answer to `fork` is not `0`) `execCommand` returns
`0` exactly when `fork` failed, or `waitpid` failed with an error code other
than `ECHILD` and `EINTR`; otherwise it returns `1`.  Nothing else the child
does enters the result.  When `fork` succeeded the parent issues one
`waitpid`, with options `0`, on the pid `fork` returned: the events of the
call are `fork`, that `waitpid`, and the error report if the wait failed
badly.  (`w.answers 0` answers `fork`, `w.answers 1` answers `waitpid`.) -/
theorem execCommand_parent (arglist : List (Option String)) (w : World)
    (hparent : (w.answers 0).ret ≠ 0) :
    ((execCommand arglist w).1 = Outcome.returned 0 ↔
        ((w.answers 0).ret = -1 ∨
          ((w.answers 1).ret = -1 ∧ (w.answers 1).errno ≠ ECHILD ∧
            (w.answers 1).errno ≠ EINTR))) ∧
    ((execCommand arglist w).1 ≠ Outcome.returned 0 →
        (execCommand arglist w).1 = Outcome.returned 1) ∧
    ((w.answers 0).ret ≠ -1 →
        (execCommand arglist w).2.trace =
          w.trace ++ [Event.sys Call.fork (w.answers 0),
            Event.sys (Call.waitpid (w.answers 0).ret 0) (w.answers 1)] ++
            (if (w.answers 1).ret = -1 ∧ (w.answers 1).errno ≠ ECHILD ∧
                (w.answers 1).errno ≠ EINTR
              then [Event.printError (w.answers 1).errno] else [])) := by
  simp only [execCommand, bind_eq, Sh.bind, sys, getErrno, printError, emit, exit,
    pure_run, ite_run]
  refine ⟨?_, ?_, ?_⟩
  all_goals split_ifs
  all_goals simp_all
  all_goals tauto

/-- C3, at a concrete run: `fork` returns pid 100 and `waitpid` fails with
`EINVAL` (22). -/
theorem execCommand_parent_witness :
    (execCommand (arglistOf ["ls"]) (World.init (answersOf [ok 100, failed 22]))).1
      = Outcome.returned 0 :=
  ((execCommand_parent (arglistOf ["ls"]) (World.init (answersOf [ok 100, failed 22]))
      (by decide)).1).2 (Or.inr (by decide))

/-- C4, the run that breaks it: the pipe is created (descriptors 3 and 4),
the first `fork` returns pid 100, the close of the write end succeeds and the
second `fork` fails (`-1`, `EAGAIN` = 11).  The test after the second `fork`
reads `pid`, so the failure goes unnoticed: the parent closes the read end,
waits on pid 100, waits on pid `-1` (no child is left: `ECHILD` = 10), reports
nothing and returns `1`. -/
theorem execPiping_second_fork_failure :
    (execPiping (arglistOf ["ls", "|", "wc"]) 1
        (World.init (answersOf
          [⟨0, 0, 3, 4⟩, ok 100, ok 0, failed 11, ok 0, ok 100, failed 10]))).1
      = Outcome.returned 1 ∧
    (execPiping (arglistOf ["ls", "|", "wc"]) 1
        (World.init (answersOf
          [⟨0, 0, 3, 4⟩, ok 100, ok 0, failed 11, ok 0, ok 100, failed 10]))).2.trace
      = [Event.sys Call.pipe ⟨0, 0, 3, 4⟩, Event.sys Call.fork (ok 100),
          Event.sys (Call.close 4) (ok 0), Event.sys Call.fork (failed 11),
          Event.sys (Call.close 3) (ok 0), Event.sys (Call.waitpid 100 0) (ok 100),
          Event.sys (Call.waitpid (-1) 0) (failed 10)] := by
  decide

/-- C5: `prepare` exits (with status 1) exactly when its `signal` call
succeeded and the registration of the SIGCHLD handler failed; when the
`signal` call fails it returns `-1`, and when both calls succeed it returns
`0`.  In the parent (no `fork` of the run answered `0`) `process_arglist`
exits exactly when the strategy it called is `execRedirOutput` and the `open`
failed; the status is then 1, and in every other run it returns `0` or `1`,
whatever the tokens and whatever calls fail.  (`w.answers 0` answers the
`signal` call of `prepare`, `w.answers 1` its `sigaction`.) -/
theorem shell_exit_conditions :
    (∀ w : World,
      ((∃ code, (prepare w).1 = Outcome.exited code) ↔
        ((w.answers 0).ret ≠ SIG_ERR ∧ (w.answers 1).ret = -1)) ∧
      ((∃ code, (prepare w).1 = Outcome.exited code) → (prepare w).1 = Outcome.exited 1) ∧
      ((w.answers 0).ret = SIG_ERR → (prepare w).1 = Outcome.returned (-1)) ∧
      ((w.answers 0).ret ≠ SIG_ERR → (w.answers 1).ret ≠ -1 →
        (prepare w).1 = Outcome.returned 0)) ∧
    (∀ (count : Int) (tokens : List String) (answers : Nat → Answer),
      0 ∉ forkRets (process_arglist count (arglistOf tokens) (World.init answers)).2.trace →
      ((∃ code, (process_arglist count (arglistOf tokens) (World.init answers)).1 =
            Outcome.exited code) ↔
          ((∃ i, invocations
              (process_arglist count (arglistOf tokens) (World.init answers)).2.trace =
                [Strategy.execRedirOutput i]) ∧
            -1 ∈ openRets
              (process_arglist count (arglistOf tokens) (World.init answers)).2.trace)) ∧
      ((process_arglist count (arglistOf tokens) (World.init answers)).1 = Outcome.exited 1 ∨
        (process_arglist count (arglistOf tokens) (World.init answers)).1 =
          Outcome.returned 0 ∨
        (process_arglist count (arglistOf tokens) (World.init answers)).1 =
          Outcome.returned 1)) :=
  ⟨prepare_exit, process_arglist_exit⟩

/-- C5, at a concrete run: the tokens `ls | wc`, the pipe cannot be created
(`EMFILE` = 24); `process_arglist` returns to its caller. -/
theorem shell_exit_conditions_witness :
    (process_arglist 3 (arglistOf ["ls", "|", "wc"])
        (World.init (answersOf [ok 0, failed 24]))).1 = Outcome.exited 1 ∨
    (process_arglist 3 (arglistOf ["ls", "|", "wc"])
        (World.init (answersOf [ok 0, failed 24]))).1 = Outcome.returned 0 ∨
    (process_arglist 3 (arglistOf ["ls", "|", "wc"])
        (World.init (answersOf [ok 0, failed 24]))).1 = Outcome.returned 1 :=
  (shell_exit_conditions.2 3 ["ls", "|", "wc"] (answersOf [ok 0, failed 24])
    (by decide)).2

/-- C6 as stated fails: `open` returns descriptor 3 and `fork` fails (`EAGAIN`
= 11).  `execRedirOutput` returns `0` without any `close`, and descriptor 3 is
still open afterwards: the open descriptors are no longer `[0, 1, 2]`. -/
theorem fork_failure_leak_counterexample :
    (execRedirOutput (arglistOf ["ls", ">", "out"]) 1
        (World.init (answersOf [ok 3, failed 11]))).1 = Outcome.returned 0 ∧
    closeCalls (execRedirOutput (arglistOf ["ls", ">", "out"]) 1
        (World.init (answersOf [ok 3, failed 11]))).2.trace = [] ∧
    3 ∈ openFds (execRedirOutput (arglistOf ["ls", ">", "out"]) 1
        (World.init (answersOf [ok 3, failed 11]))).2.trace [0, 1, 2] ∧
    openFds (execRedirOutput (arglistOf ["ls", ">", "out"]) 1
        (World.init (answersOf [ok 3, failed 11]))).2.trace [0, 1, 2] ≠ [0, 1, 2] := by
  decide

/-- C6, amended: when the descriptor has been acquired (the `open` of
`execRedirOutput`, the `pipe` of `execPiping`) and the `fork` that follows
fails, the strategy reports the error and returns `0` at once.  It issues no
`close`: the redirection descriptor, respectively both pipe ends, are still
open when it returns.  (`w.answers 0` answers `open` or `pipe`, `w.answers 1`
answers `fork`; `fds` are the descriptors open before the run.) -/
theorem fork_failure_keeps_descriptors (arglist : List (Option String)) (index : Nat)
    (w : World) (fds : List Int)
    (hacquired : (w.answers 0).ret ≠ -1) (hfork : (w.answers 1).ret = -1) :
    ((execRedirOutput arglist index w).1 = Outcome.returned 0 ∧
      (execRedirOutput arglist index w).2.trace =
        w.trace ++
          [Event.sys (Call.sys_open (cell arglist (index + 1)) O_CREAT_WRONLY_TRUNC 0o777)
              (w.answers 0),
            Event.sys Call.fork (w.answers 1), Event.printError (w.answers 1).errno] ∧
      openFds (execRedirOutput arglist index w).2.trace fds =
        (openFds w.trace fds).insert (w.answers 0).ret) ∧
    ((execPiping arglist index w).1 = Outcome.returned 0 ∧
      (execPiping arglist index w).2.trace =
        w.trace ++
          [Event.sys Call.pipe (w.answers 0), Event.sys Call.fork (w.answers 1),
            Event.printError (w.answers 1).errno] ∧
      openFds (execPiping arglist index w).2.trace fds =
        ((openFds w.trace fds).insert (w.answers 0).fd0).insert (w.answers 0).fd1) := by
  simp only [execRedirOutput, execPiping, bind_eq, ↓bind_sys, ↓bind_exit, ↓bind_getErrno,
    ↓bind_printError, ↓bind_pure, ↓bind_execvp, ↓bind_ite, ↓bind_bind, ↓pure_run, ↓ite_run,
    ↓exit_run, Nat.zero_add, Nat.reduceAdd, List.append_assoc, List.cons_append,
    List.nil_append, hacquired, hfork, ↓reduceIte]
  simp [openFds_append, openFds, hacquired, hfork]

/-- C6 amended, at a concrete run: `open` returns 3, `fork` fails. -/
theorem fork_failure_keeps_descriptors_witness :
    openFds (execRedirOutput (arglistOf ["ls", ">", "out"]) 1
        (World.init (answersOf [ok 3, failed 11]))).2.trace [0, 1, 2] = [3, 0, 1, 2] :=
  (fork_failure_keeps_descriptors (arglistOf ["ls", ">", "out"]) 1
    (World.init (answersOf [ok 3, failed 11])) [0, 1, 2] (by decide) (by decide)).1.2.2

/-- C7: in the parent (the answer to `fork` is not `0`) `execBackground`
never waits with blocking options.  If `fork` failed it reports the error and
returns `0` with no wait at all.  If `fork` succeeded it issues exactly one
`waitpid`, on the pid `fork` returned and with `WNOHANG`, and then returns
`1`, unless that call failed with an error code other than `ECHILD` and
`EINTR`, in which case it reports the error and returns `0`.
(`w.answers 0` answers `fork`, `w.answers 1` answers `waitpid`.)
For tokens whose leftmost separator is "&" this is what `process_arglist`
runs once its `signal` call succeeded, and every `waitpid` of a run of
`process_arglist` on such tokens has the option `WNOHANG`. -/
theorem execBackground_parent (arglist : List (Option String)) (index : Nat) (w : World)
    (hparent : (w.answers 0).ret ≠ 0) :
    (waitCalls (execBackground arglist index w).2.trace =
        waitCalls w.trace ++
          (if (w.answers 0).ret = -1 then [] else [((w.answers 0).ret, WNOHANG)])) ∧
    ((execBackground arglist index w).1 = Outcome.returned 0 ↔
        ((w.answers 0).ret = -1 ∨
          ((w.answers 1).ret = -1 ∧ (w.answers 1).errno ≠ ECHILD ∧
            (w.answers 1).errno ≠ EINTR))) ∧
    ((execBackground arglist index w).1 ≠ Outcome.returned 0 →
        (execBackground arglist index w).1 = Outcome.returned 1) ∧
    ((execBackground arglist index w).2.trace =
        w.trace ++
          (if (w.answers 0).ret = -1
            then [Event.sys Call.fork (w.answers 0), Event.printError (w.answers 0).errno]
            else [Event.sys Call.fork (w.answers 0),
              Event.sys (Call.waitpid (w.answers 0).ret WNOHANG) (w.answers 1)] ++
              (if (w.answers 1).ret = -1 ∧ (w.answers 1).errno ≠ ECHILD ∧
                  (w.answers 1).errno ≠ EINTR
                then [Event.printError (w.answers 1).errno] else []))) ∧
    (∀ (count : Int) (pre post : List String) (answers : Nat → Answer),
      (∀ t ∈ pre, ¬ isSeparator t) →
        ((answers 0).ret ≠ SIG_ERR →
          process_arglist count (arglistOf (pre ++ "&" :: post)) (World.init answers) =
            execBackground (arglistOf (pre ++ "&" :: post)) pre.length
              (afterSignal answers (Strategy.execBackground pre.length))) ∧
        (∀ c ∈ waitCalls
            (process_arglist count (arglistOf (pre ++ "&" :: post))
              (World.init answers)).2.trace,
          c.2 = WNOHANG)) := by
  refine ⟨?_, ?_, ?_, ?_, ?_⟩
  · simp only [execBackground, bind_eq, ↓bind_sys, ↓bind_exit, ↓bind_getErrno,
      ↓bind_printError, ↓bind_pure, ↓bind_execvp, ↓bind_ite, ↓bind_bind, ↓pure_run, ↓ite_run,
      ↓exit_run, Nat.zero_add, Nat.reduceAdd, hparent, ↓reduceIte]
    split_ifs
    all_goals simp_all [waitCalls_append, waitCalls]
  · simp only [execBackground, bind_eq, ↓bind_sys, ↓bind_exit, ↓bind_getErrno,
      ↓bind_printError, ↓bind_pure, ↓bind_execvp, ↓bind_ite, ↓bind_bind, ↓pure_run, ↓ite_run,
      ↓exit_run, Nat.zero_add, Nat.reduceAdd, hparent, ↓reduceIte]
    split_ifs
    all_goals simp_all [waitCalls_append, waitCalls]
    all_goals tauto
  · simp only [execBackground, bind_eq, ↓bind_sys, ↓bind_exit, ↓bind_getErrno,
      ↓bind_printError, ↓bind_pure, ↓bind_execvp, ↓bind_ite, ↓bind_bind, ↓pure_run, ↓ite_run,
      ↓exit_run, Nat.zero_add, Nat.reduceAdd, hparent, ↓reduceIte]
    split_ifs
    all_goals simp_all [waitCalls_append, waitCalls]
  · simp only [execBackground, bind_eq, ↓bind_sys, ↓bind_exit, ↓bind_getErrno,
      ↓bind_printError, ↓bind_pure, ↓bind_execvp, ↓bind_ite, ↓bind_bind, ↓pure_run, ↓ite_run,
      ↓exit_run, Nat.zero_add, Nat.reduceAdd, hparent, ↓reduceIte]
    split_ifs
    all_goals simp_all [waitCalls_append, waitCalls]
  · intro count pre post answers hpre
    refine ⟨fun hsig => process_arglist_bg count pre post answers hsig hpre, ?_⟩
    intro c hc
    by_cases hsig : (answers 0).ret = SIG_ERR
    · rw [process_arglist_signal_failed count _ answers hsig] at hc
      simp [waitCalls] at hc
    · rw [process_arglist_bg count pre post answers hsig hpre] at hc
      obtain ⟨evs, htr, -, -, -, -, -, hwait⟩ := execBackground_summary
        (arglistOf (pre ++ "&" :: post)) pre.length
        (afterSignal answers (Strategy.execBackground pre.length))
      rw [htr, waitCalls_append] at hc
      rcases List.mem_append.1 hc with h | h
      · simp [afterSignal, waitCalls] at h
      · exact hwait c h

/-- C7, at a concrete run: the tokens `sleep 5 &`, `fork` returns pid 100 and
the child is still running (`waitpid` returns `0`). -/
theorem execBackground_parent_witness :
    (execBackground (arglistOf ["sleep", "5", "&"]) 2
        (World.init (answersOf [ok 100, ok 0]))).1 = Outcome.returned 1 :=
  (execBackground_parent (arglistOf ["sleep", "5", "&"]) 2
      (World.init (answersOf [ok 100, ok 0])) (by decide)).2.2.1 (by decide)

/-- C8: invoked with `SIGCHLD`, `my_SIGCHLD_handler` issues exactly one call,
`waitpid(-1, &status, WNOHANG)`; it returns exactly when that call did not
fail or failed with `ECHILD` or `EINTR`; otherwise it reports the error code
and exits with status 1.  Invoked with another signal number it does nothing
and returns.  (`w.answers 0` answers the `waitpid`.) -/
theorem my_SIGCHLD_handler_spec (w : World) :
    ((my_SIGCHLD_handler SIGCHLD w).1 = Outcome.returned () ↔
        ((w.answers 0).ret ≠ -1 ∨ (w.answers 0).errno = ECHILD ∨
          (w.answers 0).errno = EINTR)) ∧
    ((my_SIGCHLD_handler SIGCHLD w).1 ≠ Outcome.returned () →
        (my_SIGCHLD_handler SIGCHLD w).1 = Outcome.exited 1) ∧
    ((my_SIGCHLD_handler SIGCHLD w).2.trace =
        w.trace ++ [Event.sys (Call.waitpid (-1) WNOHANG) (w.answers 0)] ++
          (if (w.answers 0).ret ≠ -1 ∨ (w.answers 0).errno = ECHILD ∨
              (w.answers 0).errno = EINTR
            then [] else [Event.printError (w.answers 0).errno])) ∧
    (∀ signum : Int, signum ≠ SIGCHLD →
        (my_SIGCHLD_handler signum w).1 = Outcome.returned () ∧
        (my_SIGCHLD_handler signum w).2.trace = w.trace) := by
  simp only [my_SIGCHLD_handler, bind_eq, Sh.bind, sys, getErrno, printError, emit, exit,
    pure_run, ite_run]
  refine ⟨?_, ?_, ?_, ?_⟩
  · split_ifs
    all_goals simp_all
    all_goals tauto
  · split_ifs
    all_goals simp_all
  · split_ifs
    all_goals simp_all
  · intro signum h
    simp [h]

/-- C8, at a concrete run: the reap finds no child (`ECHILD`) and the handler
returns. -/
theorem my_SIGCHLD_handler_spec_witness :
    (my_SIGCHLD_handler SIGCHLD (World.init (answersOf [failed ECHILD]))).1 =
      Outcome.returned () :=
  (my_SIGCHLD_handler_spec (World.init (answersOf [failed ECHILD]))).1.2
    (Or.inr (Or.inl (by decide)))

end MyShell
